import Mathlib

/-!
Verification of the elevation-sampling and tile-merge routines of the
`digital-elevation-model` repository.

The Python sources are shallowly embedded as follows:
* raster cell values become rationals (`ℚ`); the `NaN` produced by the
  no-data substitution becomes the `none` of `Option ℚ`;
* the 2-D numpy array becomes a list of rows (`List (List ℚ)`), and numpy
  integer indexing (negative indices wrap from the end, indices past the
  end raise `IndexError`) becomes `pyIndex` / `npGet2`, where the outer
  `none` models the `IndexError` fault;
* Python 3's `round` (round-half-to-even on exact values) becomes
  `roundHalfEven`;
* a run that raises an exception is modelled by `none` / `Except.error`.
-/

namespace DEM

/-- The 6-parameter affine geotransform `(c0, c1, c2, c3, c4, c5)` as
returned by `GetGeoTransform()`: `c0` is the longitude of the top-left
pixel, `c1` the pixel width, `c3` its latitude, `c5` the (negative) pixel
height, `c2`/`c4` the rotation terms (0 for north-up rasters). -/
structure GeoTransform where
  c0 : ℚ
  c1 : ℚ
  c2 : ℚ
  c3 : ℚ
  c4 : ℚ
  c5 : ℚ
deriving DecidableEq

/-- A 2-D grid of raster cell values, as a list of rows. -/
abbrev Grid := List (List ℚ)

/-- A loaded raster: cell grid, geotransform and the optional no-data
sentinel returned by `GetNoDataValue()` (`none` when unset). -/
structure Raster where
  grid : Grid
  gt : GeoTransform
  nodata : Option ℚ
deriving DecidableEq

/-- Python 3's `round` on an exactly representable value: round to the
nearest integer, ties to the even integer. -/
def roundHalfEven (q : ℚ) : ℤ :=
  let f : ℤ := ⌊q⌋
  if q - f < 1/2 then f
  else if 1/2 < q - f then f + 1
  else if f % 2 = 0 then f else f + 1

/-- Round half away from zero, the alternative policy named by the spec's
open question; used only to show the sampler's result depends on the
choice of policy. -/
def roundHalfAwayFromZero (q : ℚ) : ℤ :=
  if 0 ≤ q then ⌊q + 1/2⌋ else -⌊-q + 1/2⌋

/-- Column index computed by `get_elevation`:
`Xpixel = int(round((Xgeo - gt[0]) / gt[1]))` (pyDEM_function.py:171). -/
def computeCol (gt : GeoTransform) (lng : ℚ) : ℤ :=
  roundHalfEven ((lng - gt.c0) / gt.c1)

/-- Row index computed by `get_elevation`:
`Yline = int(round((Ygeo - gt[3]) / gt[5]))` (pyDEM_function.py:172). -/
def computeRow (gt : GeoTransform) (lat : ℚ) : ℤ :=
  roundHalfEven ((lat - gt.c3) / gt.c5)

/-- One cell after the no-data substitution
`gdal_array[gdal_array == nodataval] = np.nan` (pyDEM_function.py:140-141):
a cell equal to the sentinel becomes NaN (`none`). -/
def substCell (nodata : Option ℚ) (v : ℚ) : Option ℚ :=
  if nodata = some v then none else some v

/-- The whole grid after the no-data substitution. -/
def substGrid (nodata : Option ℚ) (g : Grid) : List (List (Option ℚ)) :=
  g.map (List.map (substCell nodata))

/-- Python/numpy indexing of a length-`n` axis by a signed index `i`:
`0 ≤ i < n` selects `i`, `-n ≤ i < 0` wraps to `n + i`, anything else
raises `IndexError` (modelled as `none`). -/
def pyIndex (n : ℕ) (i : ℤ) : Option ℕ :=
  if 0 ≤ i ∧ i < (n : ℤ) then some i.toNat
  else if -(n : ℤ) ≤ i ∧ i < 0 then some ((n : ℤ) + i).toNat
  else none

/-- Numpy 2-D indexing `g[r, c]` with signed indices; `none` models the
`IndexError` fault. -/
def npGet2 {α : Type} (g : List (List α)) (r c : ℤ) : Option α :=
  (pyIndex g.length r).bind fun ri =>
    (g.get? ri).bind fun row =>
      (pyIndex row.length c).bind fun ci => row.get? ci

/-- One row of the `site_ele` result array filled by `get_elevation`
(pyDEM_function.py:174-179): serial number, latitude, longitude, computed
row and column, and the looked-up elevation (`none` = NaN). -/
structure SampleResult where
  index : ℕ
  lat : ℚ
  lng : ℚ
  row : ℤ
  col : ℤ
  elevation : Option ℚ
deriving DecidableEq

/-- The body of the `get_elevation` loop for the `i`-th location
(pyDEM_function.py:171-179): compute the column and row by inverting the
affine mapping, then index the substituted array; `none` models the
`IndexError` raised when an index is out of numpy's accepted range. -/
def sampleOne (dem : Raster) (i : ℕ) (lat lng : ℚ) : Option SampleResult :=
  match npGet2 (substGrid dem.nodata dem.grid) (computeRow dem.gt lat) (computeCol dem.gt lng) with
  | none => none
  | some e => some ⟨i, lat, lng, computeRow dem.gt lat, computeCol dem.gt lng, e⟩

/-- The `for i in range(N_site)` loop of `get_elevation`, with `i` the
serial number of the next location; a fault at any location aborts the
whole call (`none`). -/
def get_elevation_from (dem : Raster) : ℕ → List (ℚ × ℚ) → Option (List SampleResult)
  | _, [] => some []
  | i, (lat, lng) :: rest =>
    match sampleOne dem i lat lng with
    | none => none
    | some r =>
      match get_elevation_from dem (i + 1) rest with
      | none => none
      | some rs => some (r :: rs)

/-- `get_elevation(dem_gcs, site_latlng)` (pyDEM_function.py:126-181):
sample every `(latitude, longitude)` pair in order, serial numbers from 0. -/
def get_elevation (dem : Raster) (sites : List (ℚ × ℚ)) : Option (List SampleResult) :=
  get_elevation_from dem 0 sites

/-- Cell lookup by non-negative indices, used to state which cell a sample
returned. -/
def cellAt {α : Type} (g : List (List α)) (r c : ℕ) : Option α :=
  (g.get? r).bind fun row => row.get? c

/-- Numpy's resolution of a signed in-range index to the actual cell
offset: negative indices count from the end of the axis. -/
def wrapIdx (n : ℕ) (i : ℤ) : ℤ :=
  if i < 0 then (n : ℤ) + i else i

/-- A concrete raster used for the spec's worked example: geotransform
`(0, 1, 0, 10, 0, -1)`, no-data sentinel `-9999`. -/
def demoRaster : Raster :=
  { grid := [[7, 3], [4, 5]]
    gt := ⟨0, 1, 0, 10, 0, -1⟩
    nodata := some (-9999) }

/-- A concrete raster holding the no-data sentinel at `[0][0]` and a
legitimate zero at `[0][1]`. -/
def nodataRaster : Raster :=
  { grid := [[-9999, 0], [4, 5]]
    gt := ⟨0, 1, 0, 10, 0, -1⟩
    nodata := some (-9999) }

theorem pyIndex_wrap {n : ℕ} {i : ℤ} (hlo : -(n : ℤ) ≤ i) (hhi : i < (n : ℤ)) :
    pyIndex n i = some (wrapIdx n i).toNat := by
  unfold pyIndex wrapIdx
  by_cases hneg : i < 0
  · rw [if_neg (by omega), if_pos ⟨hlo, hneg⟩, if_pos hneg]
  · rw [if_pos ⟨by omega, hhi⟩, if_neg hneg]

theorem pyIndex_none {n : ℕ} {i : ℤ} (h : (n : ℤ) ≤ i ∨ i < -(n : ℤ)) :
    pyIndex n i = none := by
  unfold pyIndex
  rw [if_neg, if_neg] <;> rintro ⟨h1, h2⟩ <;> omega

theorem pyIndex_lt {n : ℕ} {i : ℤ} {j : ℕ} (h : pyIndex n i = some j) : j < n := by
  unfold pyIndex at h
  split at h
  · next hc => simp only [Option.some.injEq] at h; omega
  · split at h
    · next hc => simp only [Option.some.injEq] at h; omega
    · exact absurd h (by simp)

theorem wrapIdx_toNat_lt {n : ℕ} {i : ℤ} (hlo : -(n : ℤ) ≤ i) (hhi : i < (n : ℤ)) :
    (wrapIdx n i).toNat < n := by
  unfold wrapIdx
  split <;> omega

theorem substGrid_length (nodata : Option ℚ) (g : Grid) :
    (substGrid nodata g).length = g.length :=
  List.length_map ..

theorem substGrid_rect {g : Grid} {W : ℕ} (hrect : ∀ row ∈ g, row.length = W)
    (nodata : Option ℚ) :
    ∀ row ∈ substGrid nodata g, row.length = W := by
  intro row hrow
  simp only [substGrid, List.mem_map] at hrow
  obtain ⟨r0, hr0, rfl⟩ := hrow
  simp [hrect r0 hr0]

theorem npGet2_eq_cellAt {α : Type} {g : List (List α)} {W : ℕ}
    (hrect : ∀ row ∈ g, row.length = W) {r c : ℤ}
    (hr : -(g.length : ℤ) ≤ r) (hr2 : r < (g.length : ℤ))
    (hc : -(W : ℤ) ≤ c) (hc2 : c < (W : ℤ)) :
    npGet2 g r c = cellAt g (wrapIdx g.length r).toNat (wrapIdx W c).toNat := by
  unfold npGet2 cellAt
  rw [pyIndex_wrap hr hr2, Option.some_bind]
  have hjlt : (wrapIdx g.length r).toNat < g.length := wrapIdx_toNat_lt hr hr2
  rw [List.get?_eq_get hjlt, Option.some_bind, Option.some_bind]
  have hW : (g.get ⟨(wrapIdx g.length r).toNat, hjlt⟩).length = W :=
    hrect _ (g.get_mem _ _)
  rw [hW, pyIndex_wrap hc hc2, Option.some_bind]

theorem npGet2_none {α : Type} {g : List (List α)} {W : ℕ}
    (hrect : ∀ row ∈ g, row.length = W) {r c : ℤ}
    (h : (g.length : ℤ) ≤ r ∨ (W : ℤ) ≤ c) : npGet2 g r c = none := by
  unfold npGet2
  rcases h with h | h
  · rw [pyIndex_none (Or.inl h), Option.none_bind]
  · cases hpi : pyIndex g.length r with
    | none => rw [Option.none_bind]
    | some ri =>
      have hlt := pyIndex_lt hpi
      rw [Option.some_bind, List.get?_eq_get hlt, Option.some_bind]
      have hW : (g.get ⟨ri, hlt⟩).length = W := hrect _ (g.get_mem _ _)
      rw [hW, pyIndex_none (Or.inl h), Option.none_bind]

theorem cellAt_exists {α : Type} {g : List (List α)} {W : ℕ}
    (hrect : ∀ row ∈ g, row.length = W) {r c : ℕ}
    (hr : r < g.length) (hc : c < W) : ∃ v, cellAt g r c = some v := by
  unfold cellAt
  rw [List.get?_eq_get hr, Option.some_bind]
  have hW : (g.get ⟨r, hr⟩).length = W := hrect _ (g.get_mem _ _)
  exact ⟨_, List.get?_eq_get (by omega)⟩

theorem cellAt_substGrid (nodata : Option ℚ) (g : Grid) (r c : ℕ) :
    cellAt (substGrid nodata g) r c = (cellAt g r c).map (substCell nodata) := by
  unfold cellAt substGrid
  rw [List.get?_map]
  cases g.get? r with
  | none => rfl
  | some row =>
    rw [Option.map_some', Option.some_bind, Option.some_bind, List.get?_map]

/-- The sampler on an in-range (possibly negative, numpy-wrapped) pair of
computed indices: it looks up the substituted grid at the wrapped offsets
and packages the result row. -/
theorem sampleOne_eq_cell (dem : Raster) (i : ℕ) (lat lng : ℚ) (W : ℕ)
    (hrect : ∀ row ∈ dem.grid, row.length = W)
    (hr : -(dem.grid.length : ℤ) ≤ computeRow dem.gt lat)
    (hr2 : computeRow dem.gt lat < (dem.grid.length : ℤ))
    (hc : -(W : ℤ) ≤ computeCol dem.gt lng)
    (hc2 : computeCol dem.gt lng < (W : ℤ)) :
    sampleOne dem i lat lng =
      Option.map
        (fun e => ⟨i, lat, lng, computeRow dem.gt lat, computeCol dem.gt lng, e⟩)
        (cellAt (substGrid dem.nodata dem.grid)
          (wrapIdx dem.grid.length (computeRow dem.gt lat)).toNat
          (wrapIdx W (computeCol dem.gt lng)).toNat) := by
  unfold sampleOne
  rw [npGet2_eq_cellAt (substGrid_rect hrect dem.nodata)
    (by rw [substGrid_length]; exact hr) (by rw [substGrid_length]; exact hr2) hc hc2,
    substGrid_length]
  cases cellAt (substGrid dem.nodata dem.grid)
    (wrapIdx dem.grid.length (computeRow dem.gt lat)).toNat
    (wrapIdx W (computeCol dem.gt lng)).toNat <;> rfl

end DEM

namespace DEM

/-- C1: for a north-up raster (`gt[2] = gt[4] = 0`, `gt[1] ≠ 0`,
`gt[5] ≠ 0`) and a coordinate whose computed indices are in bounds, the
sampler computes `column = round((longitude - gt[0]) / gt[1])` and
`row = round((latitude - gt[3]) / gt[5])` and reports the cell of the
no-data-substituted grid at `[row, column]`: nearest-cell lookup by
inverting the affine mapping, with no interpolation. -/
theorem sample_nearest_cell (dem : Raster) (i : ℕ) (lat lng : ℚ) (W : ℕ)
    (hgt2 : dem.gt.c2 = 0) (hgt4 : dem.gt.c4 = 0)
    (hgt1 : dem.gt.c1 ≠ 0) (hgt5 : dem.gt.c5 ≠ 0)
    (hrect : ∀ row ∈ dem.grid, row.length = W)
    (hr0 : 0 ≤ computeRow dem.gt lat)
    (hrR : computeRow dem.gt lat < (dem.grid.length : ℤ))
    (hc0 : 0 ≤ computeCol dem.gt lng)
    (hcW : computeCol dem.gt lng < (W : ℤ)) :
    ∃ res : SampleResult, sampleOne dem i lat lng = some res ∧
      res.col = roundHalfEven ((lng - dem.gt.c0) / dem.gt.c1) ∧
      res.row = roundHalfEven ((lat - dem.gt.c3) / dem.gt.c5) ∧
      res.index = i ∧ res.lat = lat ∧ res.lng = lng ∧
      cellAt (substGrid dem.nodata dem.grid) res.row.toNat res.col.toNat =
        some res.elevation := by
  have hcell := sampleOne_eq_cell dem i lat lng W hrect (by omega) hrR (by omega) hcW
  have hwr : wrapIdx dem.grid.length (computeRow dem.gt lat) = computeRow dem.gt lat :=
    if_neg (by omega)
  have hwc : wrapIdx W (computeCol dem.gt lng) = computeCol dem.gt lng :=
    if_neg (by omega)
  rw [hwr, hwc] at hcell
  obtain ⟨v, hv⟩ := cellAt_exists (substGrid_rect hrect dem.nodata)
    (r := (computeRow dem.gt lat).toNat) (c := (computeCol dem.gt lng).toNat)
    (by rw [substGrid_length]; omega) (by omega)
  rw [hv] at hcell
  simp only [Option.map_some'] at hcell
  exact ⟨_, hcell, rfl, rfl, rfl, rfl, rfl, hv⟩

/-- C1 witness: the example raster at latitude 9.5, longitude 0.5. -/
theorem sample_nearest_cell_witness :
    ∃ res : SampleResult, sampleOne demoRaster 3 (19/2) (1/2) = some res ∧
      res.col = roundHalfEven (((1:ℚ)/2 - demoRaster.gt.c0) / demoRaster.gt.c1) ∧
      res.row = roundHalfEven (((19:ℚ)/2 - demoRaster.gt.c3) / demoRaster.gt.c5) ∧
      res.index = 3 ∧ res.lat = 19/2 ∧ res.lng = 1/2 ∧
      cellAt (substGrid demoRaster.nodata demoRaster.grid) res.row.toNat res.col.toNat =
        some res.elevation :=
  sample_nearest_cell demoRaster 3 (19/2) (1/2) 2 rfl rfl
    (by with_unfolding_all decide) (by with_unfolding_all decide) (by decide)
    (by with_unfolding_all decide) (by with_unfolding_all decide)
    (by with_unfolding_all decide) (by with_unfolding_all decide)

/-- C3: a coordinate whose computed row index reaches the row count, or
whose computed column index reaches the column count, is rejected: the
lookup faults (numpy `IndexError`, modelled as `none`) instead of being
wrapped to another cell or clamped to the border. -/
theorem sample_out_of_extent_rejected (dem : Raster) (i : ℕ) (lat lng : ℚ) (W : ℕ)
    (hrect : ∀ row ∈ dem.grid, row.length = W)
    (hout : (dem.grid.length : ℤ) ≤ computeRow dem.gt lat ∨
      (W : ℤ) ≤ computeCol dem.gt lng) :
    sampleOne dem i lat lng = none := by
  unfold sampleOne
  rw [npGet2_none (substGrid_rect hrect dem.nodata)
    (by rw [substGrid_length]; exact hout)]

/-- C3 witness: latitude 5 resolves to row 5 on the 2-row example raster
and the sample call faults. -/
theorem sample_out_of_extent_rejected_witness :
    (2 : ℤ) ≤ computeRow demoRaster.gt 5 ∧ sampleOne demoRaster 0 5 (1/2) = none :=
  ⟨by with_unfolding_all decide,
    sample_out_of_extent_rejected demoRaster 0 5 (1/2) 2 (by decide)
      (Or.inl (by with_unfolding_all decide))⟩

/-- C4: a computed index that is negative but within `[-size, 0)` does not
fault and is not reported as out of extent: numpy wraps it, so the sampler
silently returns the cell at `rows + row` (resp. `cols + col`), i.e. a
coordinate north or west of the origin samples a cell from the opposite
edge of the grid. -/
theorem sample_negative_index_wraps (dem : Raster) (i : ℕ) (lat lng : ℚ) (W : ℕ)
    (hrect : ∀ row ∈ dem.grid, row.length = W)
    (hr : -(dem.grid.length : ℤ) ≤ computeRow dem.gt lat)
    (hr2 : computeRow dem.gt lat < (dem.grid.length : ℤ))
    (hc : -(W : ℤ) ≤ computeCol dem.gt lng)
    (hc2 : computeCol dem.gt lng < (W : ℤ))
    (hneg : computeRow dem.gt lat < 0 ∨ computeCol dem.gt lng < 0) :
    ∃ res : SampleResult, sampleOne dem i lat lng = some res ∧
      res.row = computeRow dem.gt lat ∧ res.col = computeCol dem.gt lng ∧
      cellAt (substGrid dem.nodata dem.grid)
        (if computeRow dem.gt lat < 0 then
          ((dem.grid.length : ℤ) + computeRow dem.gt lat).toNat
        else (computeRow dem.gt lat).toNat)
        (if computeCol dem.gt lng < 0 then ((W : ℤ) + computeCol dem.gt lng).toNat
        else (computeCol dem.gt lng).toNat) = some res.elevation := by
  have hcell := sampleOne_eq_cell dem i lat lng W hrect hr hr2 hc hc2
  obtain ⟨v, hv⟩ := cellAt_exists (substGrid_rect hrect dem.nodata)
    (r := (wrapIdx dem.grid.length (computeRow dem.gt lat)).toNat)
    (c := (wrapIdx W (computeCol dem.gt lng)).toNat)
    (by rw [substGrid_length]; exact wrapIdx_toNat_lt hr hr2)
    (wrapIdx_toNat_lt hc hc2)
  rw [hv] at hcell
  simp only [Option.map_some'] at hcell
  refine ⟨_, hcell, rfl, rfl, ?_⟩
  have hwr : (wrapIdx dem.grid.length (computeRow dem.gt lat)).toNat =
      if computeRow dem.gt lat < 0 then
        ((dem.grid.length : ℤ) + computeRow dem.gt lat).toNat
      else (computeRow dem.gt lat).toNat := by
    unfold wrapIdx; split <;> rfl
  have hwc : (wrapIdx W (computeCol dem.gt lng)).toNat =
      if computeCol dem.gt lng < 0 then ((W : ℤ) + computeCol dem.gt lng).toNat
      else (computeCol dem.gt lng).toNat := by
    unfold wrapIdx; split <;> rfl
  rw [hwr, hwc] at hv
  exact hv

/-- C4 witness: latitude 11 resolves to row -1 on the 2-row example raster
and the sampler silently returns the bottom-row cell `grid[1][0]`. -/
theorem sample_negative_index_wraps_witness :
    computeRow demoRaster.gt 11 = -1 ∧
    (∃ res : SampleResult, sampleOne demoRaster 0 11 0 = some res ∧
      res.row = computeRow demoRaster.gt 11 ∧ res.col = computeCol demoRaster.gt 0 ∧
      cellAt (substGrid demoRaster.nodata demoRaster.grid)
        (if computeRow demoRaster.gt 11 < 0 then
          ((demoRaster.grid.length : ℤ) + computeRow demoRaster.gt 11).toNat
        else (computeRow demoRaster.gt 11).toNat)
        (if computeCol demoRaster.gt 0 < 0 then
          ((2 : ℤ) + computeCol demoRaster.gt 0).toNat
        else (computeCol demoRaster.gt 0).toNat) = some res.elevation) :=
  ⟨by with_unfolding_all decide,
    sample_negative_index_wraps demoRaster 0 11 0 2 (by decide)
      (by with_unfolding_all decide) (by with_unfolding_all decide)
      (by with_unfolding_all decide) (by with_unfolding_all decide)
      (Or.inl (by with_unfolding_all decide))⟩

/-- C5: with a configured no-data sentinel and in-bounds computed indices,
a looked-up cell equal to the sentinel is reported as NaN (`none`), while
a cell whose legitimate value is zero (when the sentinel is not zero) is
reported as `some 0`, which is distinguishable from the NaN marker. -/
theorem sample_nodata_nan (dem : Raster) (i : ℕ) (lat lng : ℚ) (W : ℕ) (nd v : ℚ)
    (hnd : dem.nodata = some nd)
    (hrect : ∀ row ∈ dem.grid, row.length = W)
    (hr0 : 0 ≤ computeRow dem.gt lat)
    (hrR : computeRow dem.gt lat < (dem.grid.length : ℤ))
    (hc0 : 0 ≤ computeCol dem.gt lng)
    (hcW : computeCol dem.gt lng < (W : ℤ))
    (hcell : cellAt dem.grid (computeRow dem.gt lat).toNat
      (computeCol dem.gt lng).toNat = some v) :
    ∃ res : SampleResult, sampleOne dem i lat lng = some res ∧
      (v = nd → res.elevation = none) ∧
      (v ≠ nd → res.elevation = some v) ∧
      (v = 0 → nd ≠ 0 → res.elevation = some 0 ∧ res.elevation ≠ none) := by
  have hcellS := sampleOne_eq_cell dem i lat lng W hrect (by omega) hrR (by omega) hcW
  have hwr : wrapIdx dem.grid.length (computeRow dem.gt lat) = computeRow dem.gt lat :=
    if_neg (by omega)
  have hwc : wrapIdx W (computeCol dem.gt lng) = computeCol dem.gt lng :=
    if_neg (by omega)
  rw [hwr, hwc, cellAt_substGrid, hcell] at hcellS
  simp only [Option.map_some'] at hcellS
  refine ⟨_, hcellS, ?_, ?_, ?_⟩
  · intro hv
    show substCell dem.nodata v = none
    unfold substCell
    rw [if_pos (by rw [hnd, hv])]
  · intro hv
    show substCell dem.nodata v = some v
    unfold substCell
    rw [if_neg (by rw [hnd]; exact fun h => hv (Option.some.inj h).symm)]
  · intro hv hnd0
    have hne : dem.nodata ≠ some v := by
      rw [hnd]; exact fun h => hnd0 ((Option.some.inj h).trans hv)
    constructor
    · show substCell dem.nodata v = some 0
      unfold substCell
      rw [if_neg hne, hv]
    · show substCell dem.nodata v ≠ none
      unfold substCell
      rw [if_neg hne]
      simp

/-- C5 witness: a raster holding the sentinel -9999 at `[0][0]` and a
legitimate 0 at `[0][1]`; the former is reported as NaN, the latter as 0. -/
theorem sample_nodata_nan_witness :
    (∃ res : SampleResult, sampleOne nodataRaster 0 10 0 = some res ∧
      res.elevation = none) ∧
    (∃ res : SampleResult, sampleOne nodataRaster 1 10 1 = some res ∧
      res.elevation = some 0 ∧ res.elevation ≠ none) := by
  have hrow : computeRow nodataRaster.gt 10 = 0 := by with_unfolding_all decide
  have hcol0 : computeCol nodataRaster.gt 0 = 0 := by with_unfolding_all decide
  have hcol1 : computeCol nodataRaster.gt 1 = 1 := by with_unfolding_all decide
  constructor
  · obtain ⟨res, hs, h1, _, _⟩ :=
      sample_nodata_nan nodataRaster 0 10 0 2 (-9999) (-9999) rfl (by decide)
        (by rw [hrow]) (by rw [hrow]; decide) (by rw [hcol0]) (by rw [hcol0]; decide)
        (by rw [hrow, hcol0]; with_unfolding_all rfl)
    exact ⟨res, hs, h1 rfl⟩
  · obtain ⟨res, hs, _, _, h3⟩ :=
      sample_nodata_nan nodataRaster 1 10 1 2 (-9999) 0 rfl (by decide)
        (by rw [hrow]) (by rw [hrow]; decide) (by rw [hcol1]; decide)
        (by rw [hcol1]; decide)
        (by rw [hrow, hcol1]; with_unfolding_all rfl)
    exact ⟨res, hs, h3 rfl (by with_unfolding_all decide)⟩

theorem sampleOne_fields {dem : Raster} {i : ℕ} {lat lng : ℚ} {res : SampleResult}
    (h : sampleOne dem i lat lng = some res) :
    res.index = i ∧ res.lat = lat ∧ res.lng = lng := by
  unfold sampleOne at h
  cases hng : npGet2 (substGrid dem.nodata dem.grid) (computeRow dem.gt lat)
      (computeCol dem.gt lng) with
  | none => rw [hng] at h; exact absurd h (by simp)
  | some e =>
    rw [hng] at h
    simp only [Option.some.injEq] at h
    subst h
    exact ⟨rfl, rfl, rfl⟩

theorem get_elevation_from_spec (dem : Raster) :
    ∀ (sites : List (ℚ × ℚ)) (i : ℕ) (rs : List SampleResult),
      get_elevation_from dem i sites = some rs →
      rs.length = sites.length ∧
      ∀ j, j < sites.length →
        ∃ res site, rs.get? j = some res ∧ sites.get? j = some site ∧
          res.index = i + j ∧ res.lat = site.1 ∧ res.lng = site.2 := by
  intro sites
  induction sites with
  | nil =>
    intro i rs h
    unfold get_elevation_from at h
    simp only [Option.some.injEq] at h
    subst h
    exact ⟨rfl, fun j hj => absurd hj (by simp)⟩
  | cons p rest ih =>
    intro i rs h
    obtain ⟨lat, lng⟩ := p
    unfold get_elevation_from at h
    cases hs : sampleOne dem i lat lng with
    | none => rw [hs] at h; exact absurd h (by simp)
    | some r =>
      rw [hs] at h
      cases hrest : get_elevation_from dem (i + 1) rest with
      | none => rw [hrest] at h; exact absurd h (by simp)
      | some rs' =>
        rw [hrest] at h
        simp only [Option.some.injEq] at h
        subst h
        obtain ⟨hlen, hall⟩ := ih (i + 1) rs' hrest
        refine ⟨by simp [hlen], ?_⟩
        intro j hj
        cases j with
        | zero =>
          obtain ⟨h1, h2, h3⟩ := sampleOne_fields hs
          exact ⟨r, (lat, lng), rfl, rfl, by omega, h2, h3⟩
        | succ k =>
          have hk : k < rest.length := by simpa using hj
          obtain ⟨res, site, ha, hb, hc, hd, he⟩ := hall k hk
          exact ⟨res, site, ha, hb, by omega, hd, he⟩

/-- C6: `get_elevation` on the empty coordinate list returns the empty
list, and whenever it returns a result list at all, that list has the same
length as the input, in the same order: the `j`-th result carries serial
number `j` and the `j`-th input's latitude and longitude. -/
theorem get_elevation_order_stable (dem : Raster) :
    get_elevation dem [] = some [] ∧
    ∀ (sites : List (ℚ × ℚ)) (rs : List SampleResult),
      get_elevation dem sites = some rs →
      rs.length = sites.length ∧
      ∀ j, j < sites.length →
        ∃ res site, rs.get? j = some res ∧ sites.get? j = some site ∧
          res.index = j ∧ res.lat = site.1 ∧ res.lng = site.2 := by
  refine ⟨rfl, ?_⟩
  intro sites rs h
  obtain ⟨hlen, hall⟩ := get_elevation_from_spec dem sites 0 rs h
  refine ⟨hlen, fun j hj => ?_⟩
  obtain ⟨res, site, ha, hb, hc, hd, he⟩ := hall j hj
  exact ⟨res, site, ha, hb, by omega, hd, he⟩

/-- C6 witness: a one-element site list on the example raster. -/
theorem get_elevation_order_stable_witness :
    ∃ rs : List SampleResult,
      get_elevation demoRaster [((19:ℚ)/2, (1:ℚ)/2)] = some rs ∧ rs.length = 1 ∧
      ∃ res : SampleResult, rs.get? 0 = some res ∧ res.index = 0 ∧
        res.lat = 19/2 ∧ res.lng = 1/2 := by
  have h : get_elevation demoRaster [((19:ℚ)/2, 1/2)] =
      some [⟨0, 19/2, 1/2, 0, 0, some 7⟩] := by with_unfolding_all decide
  obtain ⟨hlen, hall⟩ := (get_elevation_order_stable demoRaster).2 _ _ h
  obtain ⟨res, site, ha, hb, hc, hd, he⟩ := hall 0 (by decide)
  have hsite : site = ((19:ℚ)/2, (1:ℚ)/2) := by
    simp only [List.get?] at hb
    exact (Option.some.inj hb).symm
  subst hsite
  exact ⟨_, h, hlen, res, ha, hc, hd, he⟩

end DEM

namespace DEM

/-- The reform step of one tile
(run_PyDEM_London_ASTGDEMv20.py:142-145): delete the last/bottom row
(`np.delete(dem_reform, -1, axis=0)`) and the last/right column
(`np.delete(dem_reform, -1, axis=1)`). -/
def trimTile (g : Grid) : Grid :=
  g.dropLast.map List.dropLast

/-- `np.concatenate((a, b), axis=1)` on two arrays with the same row
count: join the rows pairwise (run_PyDEM_London_ASTGDEMv20.py:194). -/
def hconcat (a b : Grid) : Grid :=
  List.zipWith (· ++ ·) a b

/-- The number of rows of a grid (`shape[0]`). -/
def rowCount (g : Grid) : ℕ := g.length

/-- The number of columns of a grid (`shape[1]` of a rectangular array). -/
def colCount (g : Grid) : ℕ := (g.head?.getD []).length

/-- The reform-then-merge of the tiles of one latitude band, in
west-to-east order: trim every tile (run_PyDEM_London_ASTGDEMv20.py:142-145),
then concatenate the trimmed tiles column-wise starting from the first
(run_PyDEM_London_ASTGDEMv20.py:190-194). -/
def mergeBand (tiles : List Grid) : Option Grid :=
  match tiles.map trimTile with
  | [] => none
  | t :: ts => some (ts.foldl hconcat t)

theorem trim_shape (g : Grid) (R W : ℕ) (hrow : g.length = R + 1)
    (hrect : ∀ row ∈ g, row.length = W) :
    (trimTile g).length = R ∧ ∀ row ∈ trimTile g, row.length = W - 1 := by
  constructor
  · simp [trimTile, hrow]
  · intro row hrow'
    simp only [trimTile, List.mem_map] at hrow'
    obtain ⟨r0, hr0, rfl⟩ := hrow'
    have hmem : r0 ∈ g := (List.dropLast_sublist g).subset hr0
    simp [List.length_dropLast, hrect r0 hmem]

theorem mem_hconcat {a b : Grid} {row : List ℚ} (h : row ∈ hconcat a b) :
    ∃ x y, x ∈ a ∧ y ∈ b ∧ row = x ++ y := by
  unfold hconcat at h
  induction a generalizing b with
  | nil => simp at h
  | cons x xs ih =>
    cases b with
    | nil => simp at h
    | cons y ys =>
      simp only [List.zipWith_cons_cons, List.mem_cons] at h
      rcases h with h | h
      · exact ⟨x, y, List.mem_cons_self .., List.mem_cons_self .., h⟩
      · obtain ⟨x', y', hx, hy, hr⟩ := ih h
        exact ⟨x', y', List.mem_cons_of_mem _ hx, List.mem_cons_of_mem _ hy, hr⟩

theorem hconcat_shape (a b : Grid) (R wa wb : ℕ)
    (ha : a.length = R) (ha2 : ∀ row ∈ a, row.length = wa)
    (hb : b.length = R) (hb2 : ∀ row ∈ b, row.length = wb) :
    (hconcat a b).length = R ∧ ∀ row ∈ hconcat a b, row.length = wa + wb := by
  constructor
  · simp [hconcat, List.length_zipWith, ha, hb]
  · intro row hrow
    obtain ⟨x, y, hx, hy, rfl⟩ := mem_hconcat hrow
    simp [List.length_append, ha2 x hx, hb2 y hy]

theorem foldl_hconcat_shape :
    ∀ (ls : List Grid) (acc : Grid) (R w : ℕ),
      acc.length = R → (∀ row ∈ acc, row.length = w) →
      (∀ l ∈ ls, l.length = R ∧ ∀ row ∈ l, row.length = colCount l) →
      (ls.foldl hconcat acc).length = R ∧
      ∀ row ∈ ls.foldl hconcat acc, row.length = w + (ls.map colCount).sum := by
  intro ls
  induction ls with
  | nil =>
    intro acc R w h1 h2 _
    exact ⟨h1, fun row hr => by simpa using h2 row hr⟩
  | cons l ls ih =>
    intro acc R w h1 h2 hl
    obtain ⟨hll, hlr⟩ := hl l (List.mem_cons_self ..)
    obtain ⟨h1', h2'⟩ := hconcat_shape acc l R w (colCount l) h1 h2 hll hlr
    obtain ⟨ha, hb⟩ := ih (hconcat acc l) R (w + colCount l) h1' h2'
      (fun l' hl' => hl l' (List.mem_cons_of_mem _ hl'))
    refine ⟨ha, fun row hr => ?_⟩
    have := hb row hr
    simp only [List.map_cons, List.sum_cons]
    omega

theorem colCount_eq_of_rect {g : Grid} {w : ℕ} (hlen : 1 ≤ g.length)
    (hrect : ∀ row ∈ g, row.length = w) : colCount g = w := by
  cases g with
  | nil => simp at hlen
  | cons row rest =>
    simp only [colCount, List.head?_cons, Option.getD_some]
    exact hrect row (List.mem_cons_self ..)

/-- C7: merging a band of two or more adjacent tiles, each of `R + 1`
rectangular rows (`R ≥ 1`) and at least one column, first trims the last
row and last column of every tile and then concatenates the trimmed tiles
column-wise: the merged raster has `R` rows and its column count is the
sum of the trimmed tiles' column counts. -/
theorem merge_band_shape (tiles : List Grid) (R : ℕ)
    (htwo : 2 ≤ tiles.length) (hR : 1 ≤ R)
    (hrows : ∀ t ∈ tiles, rowCount t = R + 1)
    (hrect : ∀ t ∈ tiles, ∀ row ∈ t, row.length = colCount t)
    (hwidth : ∀ t ∈ tiles, 1 ≤ colCount t) :
    ∃ m, mergeBand tiles = some m ∧ rowCount m = R ∧
      colCount m = (tiles.map (fun t => colCount t - 1)).sum ∧
      ∀ row ∈ m, row.length = (tiles.map (fun t => colCount t - 1)).sum := by
  cases tiles with
  | nil => simp at htwo
  | cons t0 trest =>
    have h0 := trim_shape t0 R (colCount t0) (hrows t0 (List.mem_cons_self ..))
      (hrect t0 (List.mem_cons_self ..))
    have hpred : ∀ l ∈ trest.map trimTile,
        l.length = R ∧ ∀ row ∈ l, row.length = colCount l := by
      intro l hl
      simp only [List.mem_map] at hl
      obtain ⟨t, ht, rfl⟩ := hl
      have hts := trim_shape t R (colCount t) (hrows t (List.mem_cons_of_mem _ ht))
        (hrect t (List.mem_cons_of_mem _ ht))
      have hcc : colCount (trimTile t) = colCount t - 1 :=
        colCount_eq_of_rect (by omega) hts.2
      exact ⟨hts.1, by rw [hcc]; exact hts.2⟩
    obtain ⟨hlen, hrow⟩ := foldl_hconcat_shape (trest.map trimTile) (trimTile t0) R
      (colCount t0 - 1) h0.1 h0.2 hpred
    have hsum : ((trest.map trimTile).map colCount).sum =
        (trest.map (fun t => colCount t - 1)).sum := by
      rw [List.map_map]
      refine congrArg List.sum (List.map_congr_left ?_)
      intro t ht
      have hts := trim_shape t R (colCount t) (hrows t (List.mem_cons_of_mem _ ht))
        (hrect t (List.mem_cons_of_mem _ ht))
      exact colCount_eq_of_rect (by omega) hts.2
    have htotal : ∀ row ∈ (trest.map trimTile).foldl hconcat (trimTile t0),
        row.length = ((t0 :: trest).map (fun t => colCount t - 1)).sum := by
      intro row hr
      have := hrow row hr
      rw [hsum] at this
      simpa using this
    refine ⟨(trest.map trimTile).foldl hconcat (trimTile t0), rfl, hlen, ?_, htotal⟩
    exact colCount_eq_of_rect (by rw [hlen]; omega) htotal

/-- C7 witness: two 2-by-2 tiles; each trims to 1-by-1 and the merged
raster is 1 row by 2 columns. -/
theorem merge_band_shape_witness :
    ∃ m, mergeBand [[[1, 2], [3, 4]], [[5, 6], [7, 8]]] = some m ∧
      rowCount m = 1 ∧ colCount m = 2 ∧ ∀ row ∈ m, row.length = 2 := by
  obtain ⟨m, hm, h1, h2, h3⟩ :=
    merge_band_shape [[[1, 2], [3, 4]], [[5, 6], [7, 8]]] 1
      (by decide) (by decide) (by decide) (by decide) (by decide)
  exact ⟨m, hm, h1, h2, h3⟩

end DEM

namespace DEM

/-- A tile file as opened by the merge cell: its filename, its cell grid,
and the geotransform and projection string read by `get_dem_info`. -/
structure TileFile where
  name : String
  grid : Grid
  gt : GeoTransform
  proj : String
deriving DecidableEq

/-- Insertion into a name-descending list, the building block of the
embedding of `file_names.sort(reverse=True)`
(run_PyDEM_London_ASTGDEMv20.py:170). -/
def insertDesc (f : TileFile) : List TileFile → List TileFile
  | [] => [f]
  | g :: gs => if g.name < f.name then f :: g :: gs else g :: insertDesc f gs

/-- `file_names.sort(reverse=True)`: sort the tile files by filename in
descending order, so that the tiles run west to east. -/
def sortDesc (fs : List TileFile) : List TileFile :=
  fs.foldr insertDesc []

/-- The merge loop of run_PyDEM_London_ASTGDEMv20.py:166-194 over the
already-sorted `(file_name, grid)` list. `sel` is the selection predicate
(the `'ASTGTM2' in file_name` substring filter combined with the
latitude-band filter `name_lat == '51'`), and `first` recognises the tile
whose extracted longitude is `'001'`, which re-initialises the
accumulator. The accumulator starts as Python's empty list
(`dem_merge = []`, modelled as `none`); concatenating a grid onto that
empty list is a runtime fault, modelled as `Except.error`. -/
def demMergeLoop (sel first : String → Bool) :
    Option Grid → List (String × Grid) → Except String (Option Grid)
  | acc, [] => Except.ok acc
  | acc, (n, g) :: rest =>
    if sel n then
      if first n then demMergeLoop sel first (some g) rest
      else
        match acc with
        | none => Except.error "ValueError: cannot concatenate onto the empty list"
        | some m => demMergeLoop sel first (some (hconcat m g)) rest
    else demMergeLoop sel first acc rest

/-- The whole merge loop, started from the empty accumulator
(`dem_merge = []`, run_PyDEM_London_ASTGDEMv20.py:166). -/
def demMerge (sel first : String → Bool) (tiles : List (String × Grid)) :
    Except String (Option Grid) :=
  demMergeLoop sel first none tiles

/-- The raster written by `write_dem` at the end of the merge cell: the
merged grid together with the geotransform and projection passed through
verbatim (`SetGeoTransform(d_gt)` / `SetProjection(d_proj)`,
pyDEM_function.py:82-83). -/
structure WrittenDem where
  grid : Grid
  gt : GeoTransform
  proj : String
deriving DecidableEq

/-- The merge cell of run_PyDEM_London_ASTGDEMv20.py:162-208 end to end:
sort the tile files descending by name, run the merge loop over them,
fault (`AttributeError`) if the accumulator is still the initial empty
list when its shape is printed (line 196), fault (`IndexError`) if there
is no `file_names[0]` (line 199), and otherwise write the merged grid with
the first sorted tile's geotransform and projection taken verbatim
(lines 199-208). -/
def mergePipeline (sel first : String → Bool) (fs : List TileFile) :
    Except String WrittenDem :=
  match demMerge sel first ((sortDesc fs).map fun f => (f.name, f.grid)) with
  | Except.error e => Except.error e
  | Except.ok none => Except.error "AttributeError: the list has no shape attribute"
  | Except.ok (some m) =>
    match sortDesc fs with
    | [] => Except.error "IndexError: the file name list is empty"
    | f0 :: _ => Except.ok ⟨m, f0.gt, f0.proj⟩

theorem demMergeLoop_unselected (sel first : String → Bool) :
    ∀ (tiles : List (String × Grid)) (acc : Option Grid),
      (∀ p ∈ tiles, sel p.1 = false) →
      demMergeLoop sel first acc tiles = Except.ok acc := by
  intro tiles
  induction tiles with
  | nil => intro acc _; rfl
  | cons p rest ih =>
    intro acc h
    obtain ⟨n, g⟩ := p
    unfold demMergeLoop
    rw [h (n, g) (List.mem_cons_self ..)]
    simp only [Bool.false_eq_true, if_false]
    exact ih acc fun q hq => h q (List.mem_cons_of_mem _ hq)

theorem mem_insertDesc {f x : TileFile} :
    ∀ {l : List TileFile}, x ∈ insertDesc f l → x = f ∨ x ∈ l := by
  intro l
  induction l with
  | nil => intro h; simpa [insertDesc] using h
  | cons g gs ih =>
    intro h
    unfold insertDesc at h
    split at h
    · rcases List.mem_cons.1 h with h | h
      · exact Or.inl h
      · exact Or.inr h
    · rcases List.mem_cons.1 h with h | h
      · exact Or.inr (by rw [h]; exact List.mem_cons_self ..)
      · rcases ih h with h | h
        · exact Or.inl h
        · exact Or.inr (List.mem_cons_of_mem _ h)

theorem mem_sortDesc {x : TileFile} :
    ∀ {fs : List TileFile}, x ∈ sortDesc fs → x ∈ fs := by
  intro fs
  induction fs with
  | nil => intro h; simpa [sortDesc] using h
  | cons f fs ih =>
    intro h
    rcases mem_insertDesc (l := sortDesc fs) h with h | h
    · rw [h]; exact List.mem_cons_self ..
    · exact List.mem_cons_of_mem _ (ih h)

/-- C8 counterexample: a selector that matches no file. The merge loop
does not fail at all, let alone with a no-tiles-selected condition: it
completes with `ok` carrying the untouched initial empty value. -/
theorem merge_empty_selection_counterexample :
    demMerge (fun n => n == "ASTGTM2_N51E000_dem.tif")
      (fun n => n == "ASTGTM2_N51W001_dem.tif")
      [("ASTGTM2_N52E000_dem.tif", [[1, 2], [3, 4]])] = Except.ok none := by
  with_unfolding_all rfl

/-- C8 amended: when the selector matches zero tiles, the merge loop
finishes without any explicit failure and leaves the initial empty list
value in the accumulator; the merge cell as a whole then faults only
incidentally, when it reads the shape of that value — an `AttributeError`,
not a no-tiles-selected condition. -/
theorem merge_empty_selection_silent (sel first : String → Bool)
    (tiles : List (String × Grid)) (fs : List TileFile)
    (htiles : ∀ p ∈ tiles, sel p.1 = false)
    (hfs : ∀ f ∈ fs, sel f.name = false) :
    demMerge sel first tiles = Except.ok none ∧
    mergePipeline sel first fs =
      Except.error "AttributeError: the list has no shape attribute" := by
  constructor
  · exact demMergeLoop_unselected sel first tiles none htiles
  · unfold mergePipeline
    have hnone : demMerge sel first ((sortDesc fs).map fun f => (f.name, f.grid)) =
        Except.ok none := by
      apply demMergeLoop_unselected
      intro p hp
      simp only [List.mem_map] at hp
      obtain ⟨f, hf, rfl⟩ := hp
      exact hfs f (mem_sortDesc hf)
    rw [hnone]

/-- C8 amended witness: a concrete band-51 selector over a single
band-52 tile. -/
theorem merge_empty_selection_silent_witness :
    demMerge (fun n => n == "ASTGTM2_N51E000_dem.tif")
        (fun n => n == "ASTGTM2_N51W001_dem.tif")
        [("foo.tif", [[1, 2], [3, 4]])] = Except.ok none ∧
    mergePipeline (fun n => n == "ASTGTM2_N51E000_dem.tif")
        (fun n => n == "ASTGTM2_N51W001_dem.tif")
        [⟨"foo.tif", [[1, 2], [3, 4]], ⟨0, 1, 0, 10, 0, -1⟩, "WGS84"⟩] =
      Except.error "AttributeError: the list has no shape attribute" :=
  merge_empty_selection_silent _ _ _ _ (by decide) (by decide)

/-- C9: whatever raster the merge cell writes, its geotransform and its
projection identifier are exactly those of the first tile file after the
descending sort of the filenames (the westmost tile); no field is
recomputed for the merged extent. -/
theorem merged_georeference_from_first_tile (sel first : String → Bool)
    (fs : List TileFile) (out : WrittenDem)
    (h : mergePipeline sel first fs = Except.ok out) :
    ∃ f0 rest, sortDesc fs = f0 :: rest ∧ out.gt = f0.gt ∧ out.proj = f0.proj := by
  unfold mergePipeline at h
  cases hm : demMerge sel first ((sortDesc fs).map fun f => (f.name, f.grid)) with
  | error e => rw [hm] at h; exact absurd h (by simp)
  | ok o =>
    rw [hm] at h
    cases o with
    | none => exact absurd h (by simp)
    | some m =>
      cases hs : sortDesc fs with
      | nil => rw [hs] at h; exact absurd h (by simp)
      | cons f0 rest =>
        rw [hs] at h
        simp only [Except.ok.injEq] at h
        subst h
        exact ⟨f0, rest, rfl, rfl, rfl⟩

/-- C9 witness: two band-51 tiles with different geotransforms; the output
carries the westmost (name-descending first) tile's georeference. -/
theorem merged_georeference_from_first_tile_witness :
    ∃ (out : WrittenDem) (f0 : TileFile) (rest : List TileFile),
      mergePipeline (fun n => n == "ASTGTM2_N51E000_dem.tif"
          || n == "ASTGTM2_N51W001_dem.tif")
        (fun n => n == "ASTGTM2_N51W001_dem.tif")
        [⟨"ASTGTM2_N51E000_dem.tif", [[5, 6], [7, 8]], ⟨3, 4, 0, 52, 0, -4⟩, "OTHER"⟩,
          ⟨"ASTGTM2_N51W001_dem.tif", [[1, 2], [3, 4]], ⟨1, 2, 0, 51, 0, -2⟩, "WGS84"⟩] =
        Except.ok out ∧
      sortDesc
        [⟨"ASTGTM2_N51E000_dem.tif", [[5, 6], [7, 8]], ⟨3, 4, 0, 52, 0, -4⟩, "OTHER"⟩,
          ⟨"ASTGTM2_N51W001_dem.tif", [[1, 2], [3, 4]], ⟨1, 2, 0, 51, 0, -2⟩, "WGS84"⟩] =
        f0 :: rest ∧
      out.gt = f0.gt ∧ out.proj = f0.proj := by
  have h : mergePipeline (fun n => n == "ASTGTM2_N51E000_dem.tif"
        || n == "ASTGTM2_N51W001_dem.tif")
      (fun n => n == "ASTGTM2_N51W001_dem.tif")
      [⟨"ASTGTM2_N51E000_dem.tif", [[5, 6], [7, 8]], ⟨3, 4, 0, 52, 0, -4⟩, "OTHER"⟩,
        ⟨"ASTGTM2_N51W001_dem.tif", [[1, 2], [3, 4]], ⟨1, 2, 0, 51, 0, -2⟩, "WGS84"⟩] =
      Except.ok ⟨[[1, 2, 5, 6], [3, 4, 7, 8]], ⟨1, 2, 0, 51, 0, -2⟩, "WGS84"⟩ := by
    with_unfolding_all rfl
  obtain ⟨f0, rest, h1, h2, h3⟩ := merged_georeference_from_first_tile _ _ _ _ h
  exact ⟨_, f0, rest, h, h1, h2, h3⟩

/-- The ambient state read by `transprojcnvt_dem`: whether the output file
already exists, and the exit status the external `gdalwarp` process will
return. -/
structure ProcEnv where
  outFileExists : Bool
  exitStatus : ℤ
deriving DecidableEq

/-- `transprojcnvt_dem(dem_in, epsg_in, dem_out, epsg_out)`
(pyDEM_function.py:184-203), modelled as a function of its arguments and
of the ambient process environment; it returns the Python return value
together with the list of side effects it performs (the optional delete
and the `gdalwarp` invocation). The exit status of `subprocess.call` is
available in the environment but never read. -/
def transprojcnvt_dem (dem_in : String) (epsg_in : ℤ) (dem_out : String)
    (epsg_out : ℤ) (env : ProcEnv) : ℤ × List String :=
  ((0 : ℤ),
    (if env.outFileExists then ["remove " ++ dem_out] else []) ++
      ["gdalwarp -s_srs EPSG:" ++ toString epsg_in ++ " -t_srs EPSG:" ++
        toString epsg_out ++ " " ++ dem_in ++ " " ++ dem_out])

/-- C10: `transprojcnvt_dem` returns 0 whatever the environment, and its
entire behaviour is unchanged when the external process's exit status is
replaced by any other value: a failed `gdalwarp` is silently ignored and
never surfaced to the caller. -/
theorem transprojcnvt_ignores_exit_status (dem_in : String) (epsg_in : ℤ)
    (dem_out : String) (epsg_out : ℤ) (env : ProcEnv) (s : ℤ) :
    (transprojcnvt_dem dem_in epsg_in dem_out epsg_out env).1 = 0 ∧
    transprojcnvt_dem dem_in epsg_in dem_out epsg_out env =
      transprojcnvt_dem dem_in epsg_in dem_out epsg_out
        { env with exitStatus := s } :=
  ⟨rfl, rfl⟩

end DEM

namespace DEM

/-- C2: on the raster with geotransform `(0, 1, 0, 10, 0, -1)` and no-data
sentinel `-9999`, sampling `(latitude 9.5, longitude 0.5)` gives quotients
exactly `1/2` for both axes, rounds them half-to-even to row 0 and
column 0, and returns `grid[0][0]`; round-half-away-from-zero would give 1
instead, so the result depends on the half-to-even policy. -/
theorem sample_half_pixel_demo :
    ((1 : ℚ)/2 - demoRaster.gt.c0) / demoRaster.gt.c1 = 1/2 ∧
    ((19 : ℚ)/2 - demoRaster.gt.c3) / demoRaster.gt.c5 = 1/2 ∧
    roundHalfEven (1/2) = 0 ∧
    roundHalfAwayFromZero (1/2) = 1 ∧
    sampleOne demoRaster 0 (19/2) (1/2) =
      some ⟨0, 19/2, 1/2, 0, 0, some 7⟩ ∧
    cellAt demoRaster.grid 0 0 = some 7 := by
  refine ⟨by with_unfolding_all decide, by with_unfolding_all decide,
    by with_unfolding_all decide, by with_unfolding_all decide, ?_, by decide⟩
  with_unfolding_all decide

end DEM
